import Mathlib

/-!
Shallow embedding of the training-engine orchestration code of the
vall-e repository (files `vall_e/engines/base.py`, `vall_e/models/base.py`,
`vall_e/utils/distributed.py`), together with proofs settling the frozen
claims about its specification.

Machine integers of the source are modelled as `Nat`/`Int` (the counters are
Python ints, which are unbounded, so no wrap-around is modelled).  Fallible
Python code is modelled with `Except PyErr`.  External torch state (module
weights, optimizer internals) is modelled by explicit small records holding
exactly the information the orchestration code reads and writes.
-/

namespace ValleSpec

/-- Python runtime errors raised by the embedded code.  `runtimeError` carries
the message because `Engines.step` dispatches on the substring
"out of memory" of the message text. -/
inductive PyErr where
  | attributeError (msg : String)
  | exceptionErr (msg : String)
  | typeError (msg : String)
  | runtimeError (msg : String)
deriving Repr, DecidableEq

/-- Hyperparameter configuration (`cfg.hyperparameters` in the source). -/
structure HyperCfg where
  batch_size : Nat
  gradient_accumulation_steps : Nat
  scheduler_type : String
  learning_rate : Int
deriving Repr, DecidableEq

/-- Torch optimizer state, abstracted to what the engine code observes:
`stepCount` counts calls to `optimizer.step()` (the externally visible effect
of one parameter update), `grads` counts backward passes accumulated since the
last `optimizer.zero_grad()` (zeroing the gradients resets it to `0`), and
`lr` is the learning rate stored in the parameter groups. -/
structure Optimizer where
  stepCount : Nat
  grads : Nat
  lr : Int
deriving Repr, DecidableEq

/-- One named module parameter, as seen through `module.named_parameters()`:
a name, an abstract weight blob and the `requires_grad` flag. -/
structure Param where
  name : String
  value : Int
  requires_grad : Bool
deriving Repr, DecidableEq

/-- Per-engine model configuration (`engine._cfg` in the source).
`frozen_params = none` models a configuration object without a
`frozen_params` attribute (`hasattr` false). -/
structure EngineCfg where
  training : Bool
  frozen_params : Option (List String)
deriving Repr, DecidableEq

/-- The single-model `Engine` of `vall_e/engines/base.py`.  The module is its
parameter list; `cfgOpt` models the `_cfg` attribute (`none` = attribute never
bound, i.e. `_cfg` was not passed to the constructor); `frozenParams` models
`_frozen_params` (the source stores parameter objects in a set, identified
here by their unique names); `mocro_step` models the attribute of that name
created by the misspelt assignment in `Engines.load_checkpoint`
(`none` = attribute absent). -/
structure Engine where
  module : List Param
  optimizer : Option Optimizer
  lr_scheduler : Option Int
  global_steps : Nat
  micro_steps : Nat
  global_samples : Nat
  tokens_processed : Nat
  cfgOpt : Option EngineCfg
  frozenParams : List String
  mocro_step : Option Nat
deriving Repr, DecidableEq

/-- A freshly constructed engine (counters default to `0` in `__init__`),
holding optimizer `o` and module `ps`, with no `_cfg` bound. -/
def freshEngine (o : Optimizer) (ps : List Param) : Engine :=
  { module := ps
    optimizer := some o
    lr_scheduler := none
    global_steps := 0
    micro_steps := 0
    global_samples := 0
    tokens_processed := 0
    cfgOpt := none
    frozenParams := []
    mocro_step := none }

/-- `Engine.step` (engines/base.py lines 183-191).  The body runs under
`torch.set_grad_enabled(gradient_accumulation_steps > 1)`, which has no effect
on any state modelled here.  It increments `micro_steps`, adds the configured
batch size to `global_samples`, and when `(micro_steps + 1) % max(1, N) == 0`
(with the already-incremented `micro_steps`) it increments `global_steps`,
calls `optimizer.step()` and `optimizer.zero_grad()`.  When the optimizer is
`None`, Python raises `AttributeError` at `self.optimizer.step()` (the
counters mutated before the raise are not tracked through the error case; no
claim concerns a step without an optimizer). -/
def Engine.step (cfgH : HyperCfg) (e : Engine) : Except PyErr Engine :=
  let e1 : Engine :=
    { e with micro_steps := e.micro_steps + 1
             global_samples := e.global_samples + cfgH.batch_size }
  if (e1.micro_steps + 1) % max 1 cfgH.gradient_accumulation_steps = 0 then
    match e1.optimizer with
    | none => .error (.attributeError ("NoneType object has no attribute step"))
    | some o =>
      .ok { e1 with
              global_steps := e1.global_steps + 1
              optimizer := some { o with stepCount := o.stepCount + 1, grads := 0 } }
  else
    .ok e1

/-- `n` successive calls to `Engine.step`. -/
def Engine.stepN (cfgH : HyperCfg) : Nat → Engine → Except PyErr Engine
  | 0, e => .ok e
  | n + 1, e => (e.step cfgH).bind (Engine.stepN cfgH n)

/-- The engine obtained after `k` calls to `step()` on a fresh engine holding
optimizer `o` (total extractor; `stepN` never errors from an engine with an
optimizer, as proved below). -/
def runSteps (cfgH : HyperCfg) (o : Optimizer) (k : Nat) : Engine :=
  match Engine.stepN cfgH k (freshEngine o []) with
  | .ok e => e
  | .error _ => freshEngine o []

example :
    (runSteps ⟨3, 1, "", 0⟩ ⟨0, 0, 1⟩ 5).global_steps = 5 := by decide

example :
    (runSteps ⟨3, 2, "", 0⟩ ⟨0, 0, 1⟩ 1).global_steps = 1 := by decide

/-- When `(micro_steps + 2) % max(1, N) = 0` (the source checks this with the
already-incremented counter), `step()` fires the optimizer update. -/
theorem Engine.step_fire (cfgH : HyperCfg) (e : Engine) (o : Optimizer)
    (ho : e.optimizer = some o)
    (h : (e.micro_steps + 1 + 1) % max 1 cfgH.gradient_accumulation_steps = 0) :
    e.step cfgH = .ok { e with
      micro_steps := e.micro_steps + 1
      global_samples := e.global_samples + cfgH.batch_size
      global_steps := e.global_steps + 1
      optimizer := some { o with stepCount := o.stepCount + 1, grads := 0 } } := by
  simp [Engine.step, ho, h]

/-- When the accumulation boundary is not reached, `step()` only bumps
`micro_steps` and `global_samples`. -/
theorem Engine.step_skip (cfgH : HyperCfg) (e : Engine)
    (h : ¬ (e.micro_steps + 1 + 1) % max 1 cfgH.gradient_accumulation_steps = 0) :
    e.step cfgH = .ok { e with
      micro_steps := e.micro_steps + 1
      global_samples := e.global_samples + cfgH.batch_size } := by
  simp [Engine.step, h]

/-- Trajectory invariant for `n` calls to `step()` on an engine holding an
optimizer: the run never raises, `micro_steps` grows by `n`, `global_samples`
by `n * batch_size`, and `global_steps` (and the count of optimizer updates)
grows by the number of multiples of `max(1, N)` in the half-open interval
`(micro_steps + 1, micro_steps + 1 + n]`, stated division-free-of-subtraction
as an equation between sums. -/
theorem Engine.stepN_invariant (cfgH : HyperCfg) (n : Nat) (e : Engine) (o : Optimizer)
    (ho : e.optimizer = some o) :
    ∃ e' o', Engine.stepN cfgH n e = .ok e' ∧ e'.optimizer = some o' ∧
      e'.micro_steps = e.micro_steps + n ∧
      e'.global_samples = e.global_samples + n * cfgH.batch_size ∧
      e'.global_steps + (e.micro_steps + 1) / max 1 cfgH.gradient_accumulation_steps
        = e.global_steps + (e.micro_steps + 1 + n) / max 1 cfgH.gradient_accumulation_steps ∧
      o'.stepCount + (e.micro_steps + 1) / max 1 cfgH.gradient_accumulation_steps
        = o.stepCount + (e.micro_steps + 1 + n) / max 1 cfgH.gradient_accumulation_steps := by
  induction n generalizing e o with
  | zero => exact ⟨e, o, rfl, ho, by simp, by simp, by simp, by simp⟩
  | succ n ih =>
    have hdiv : (e.micro_steps + 1 + 1) / max 1 cfgH.gradient_accumulation_steps
        = (e.micro_steps + 1) / max 1 cfgH.gradient_accumulation_steps
          + if max 1 cfgH.gradient_accumulation_steps ∣ e.micro_steps + 1 + 1 then 1 else 0 :=
      Nat.succ_div _ _
    by_cases hfire : (e.micro_steps + 1 + 1) % max 1 cfgH.gradient_accumulation_steps = 0
    · have hstep := Engine.step_fire cfgH e o ho hfire
      have hdvd : max 1 cfgH.gradient_accumulation_steps ∣ e.micro_steps + 1 + 1 :=
        Nat.dvd_of_mod_eq_zero hfire
      obtain ⟨e', o', heq, ho', hm, hs, hg, hc⟩ := ih
        { e with
          micro_steps := e.micro_steps + 1
          global_samples := e.global_samples + cfgH.batch_size
          global_steps := e.global_steps + 1
          optimizer := some { o with stepCount := o.stepCount + 1, grads := 0 } }
        { o with stepCount := o.stepCount + 1, grads := 0 } rfl
      refine ⟨e', o', ?_, ho', ?_, ?_, ?_, ?_⟩
      · show (e.step cfgH).bind (Engine.stepN cfgH n) = .ok e'
        rw [hstep]; exact heq
      · simp only at hm; omega
      · simp only at hs; rw [hs]; ring_nf
      · simp only at hg
        rw [if_pos hdvd] at hdiv
        have harith : e.micro_steps + 1 + 1 + n = e.micro_steps + 1 + (n + 1) := by omega
        rw [harith] at hg
        omega
      · simp only at hc
        rw [if_pos hdvd] at hdiv
        have harith : e.micro_steps + 1 + 1 + n = e.micro_steps + 1 + (n + 1) := by omega
        rw [harith] at hc
        omega
    · have hstep := Engine.step_skip cfgH e hfire
      have hndvd : ¬ max 1 cfgH.gradient_accumulation_steps ∣ e.micro_steps + 1 + 1 := by
        intro hd
        exact hfire (Nat.mod_eq_zero_of_dvd hd)
      obtain ⟨e', o', heq, ho', hm, hs, hg, hc⟩ := ih
        { e with
          micro_steps := e.micro_steps + 1
          global_samples := e.global_samples + cfgH.batch_size }
        o ho
      refine ⟨e', o', ?_, ho', ?_, ?_, ?_, ?_⟩
      · show (e.step cfgH).bind (Engine.stepN cfgH n) = .ok e'
        rw [hstep]; exact heq
      · simp only at hm; omega
      · simp only at hs; rw [hs]; ring_nf
      · simp only at hg
        rw [if_neg hndvd] at hdiv
        have harith : e.micro_steps + 1 + 1 + n = e.micro_steps + 1 + (n + 1) := by omega
        rw [harith] at hg
        omega
      · simp only at hc
        rw [if_neg hndvd] at hdiv
        have harith : e.micro_steps + 1 + 1 + n = e.micro_steps + 1 + (n + 1) := by omega
        rw [harith] at hc
        omega

/-- Reduction of `Except.bind` at an `ok` value. -/
theorem except_bind_ok {α β ε : Type} (a : α) (f : α → Except ε β) :
    (Except.ok a : Except ε α).bind f = f a := rfl

/-- Reduction of `Except.bind` at an `error` value. -/
theorem except_bind_error {α β ε : Type} (err : ε) (f : α → Except ε β) :
    (Except.error err : Except ε α).bind f = .error err := rfl

/-- Splitting the last call off a run of `n + 1` calls. -/
theorem Engine.stepN_succ (cfgH : HyperCfg) (n : Nat) (e : Engine) :
    Engine.stepN cfgH (n + 1) e = (Engine.stepN cfgH n e).bind (Engine.step cfgH) := by
  induction n generalizing e with
  | zero =>
    show (e.step cfgH).bind (Engine.stepN cfgH 0) = (Except.ok e).bind (Engine.step cfgH)
    rw [except_bind_ok]
    cases h : e.step cfgH with
    | error err => rw [except_bind_error]
    | ok e1 => rw [except_bind_ok]; rfl
  | succ n ih =>
    show (e.step cfgH).bind (Engine.stepN cfgH (n + 1))
        = (Engine.stepN cfgH (n + 1) e).bind (Engine.step cfgH)
    cases h : e.step cfgH with
    | error err =>
      have hL : Engine.stepN cfgH (n + 1) e = .error err := by
        show (e.step cfgH).bind (Engine.stepN cfgH n) = _
        rw [h, except_bind_error]
      rw [hL, except_bind_error, except_bind_error]
    | ok e1 =>
      have hL : Engine.stepN cfgH (n + 1) e = Engine.stepN cfgH n e1 := by
        show (e.step cfgH).bind (Engine.stepN cfgH n) = _
        rw [h, except_bind_ok]
      calc (Except.ok e1).bind (Engine.stepN cfgH (n + 1))
          = Engine.stepN cfgH (n + 1) e1 := except_bind_ok _ _
        _ = (Engine.stepN cfgH n e1).bind (Engine.step cfgH) := ih e1
        _ = (Engine.stepN cfgH (n + 1) e).bind (Engine.step cfgH) := by rw [hL]

/-- The extractor returns the `ok` value of `stepN` whenever there is one. -/
theorem runSteps_eq_of_stepN (cfgH : HyperCfg) (o : Optimizer) (k : Nat) (x : Engine)
    (h : Engine.stepN cfgH k (freshEngine o []) = .ok x) : runSteps cfgH o k = x := by
  unfold runSteps
  rw [h]

/-- The run extractor agrees with `stepN`, and records the micro-step count. -/
theorem runSteps_spec (cfgH : HyperCfg) (o : Optimizer) (k : Nat) :
    Engine.stepN cfgH k (freshEngine o []) = .ok (runSteps cfgH o k) ∧
      (runSteps cfgH o k).micro_steps = k ∧
      ∃ p, (runSteps cfgH o k).optimizer = some p := by
  obtain ⟨e', o', heq, ho', hm, -, -, -⟩ :=
    Engine.stepN_invariant cfgH k (freshEngine o []) o rfl
  have hrun : runSteps cfgH o k = e' := by
    unfold runSteps
    rw [heq]
  rw [hrun, heq]
  exact ⟨rfl, by simpa [freshEngine] using hm, o', ho'⟩

/-- C1: for every gradient-accumulation factor `N ≥ 1` and every engine
holding an optimizer, whatever values its counters start at, `N` consecutive
calls to `step()` raise nothing, increase `global_steps` by exactly `1` and
increase `global_samples` by exactly `N * batch_size`. -/
theorem C1_gradient_accumulation (cfgH : HyperCfg) (e : Engine) (o : Optimizer)
    (hN : 1 ≤ cfgH.gradient_accumulation_steps) (ho : e.optimizer = some o) :
    ∃ e', Engine.stepN cfgH cfgH.gradient_accumulation_steps e = .ok e' ∧
      e'.global_steps = e.global_steps + 1 ∧
      e'.global_samples
        = e.global_samples + cfgH.gradient_accumulation_steps * cfgH.batch_size := by
  obtain ⟨e', o', heq, -, -, hs, hg, -⟩ :=
    Engine.stepN_invariant cfgH cfgH.gradient_accumulation_steps e o ho
  refine ⟨e', heq, ?_, hs⟩
  rw [Nat.max_eq_right hN] at hg
  have hdiv : (e.micro_steps + 1 + cfgH.gradient_accumulation_steps)
        / cfgH.gradient_accumulation_steps
      = (e.micro_steps + 1) / cfgH.gradient_accumulation_steps + 1 :=
    Nat.add_div_right _ (by omega)
  omega

/-- Witness for C1 at `N = 2`, `batch_size = 3`, a fresh engine. -/
theorem C1_gradient_accumulation_witness :
    1 ≤ (HyperCfg.mk 3 2 ("") 0).gradient_accumulation_steps ∧
    (freshEngine ⟨0, 0, 1⟩ []).optimizer = some ⟨0, 0, 1⟩ ∧
    ∃ e', Engine.stepN ⟨3, 2, "", 0⟩ (HyperCfg.mk 3 2 ("") 0).gradient_accumulation_steps
        (freshEngine ⟨0, 0, 1⟩ []) = .ok e' ∧
      e'.global_steps = (freshEngine ⟨0, 0, 1⟩ []).global_steps + 1 ∧
      e'.global_samples = (freshEngine ⟨0, 0, 1⟩ []).global_samples
        + (HyperCfg.mk 3 2 ("") 0).gradient_accumulation_steps * (HyperCfg.mk 3 2 ("") 0).batch_size :=
  ⟨by decide, rfl,
    C1_gradient_accumulation ⟨3, 2, "", 0⟩ (freshEngine ⟨0, 0, 1⟩ []) ⟨0, 0, 1⟩ (by decide) rfl⟩

/-- C2 counterexample: with `gradient_accumulation_steps = 2` and a fresh
engine, the claim says the optimizer update and `global_steps` increment occur
exactly on calls `2, 4, 6, ...`; but the very first call to `step()` already
increments `global_steps` and performs the optimizer update (its condition
`(micro_steps + 1) % N == 0` tests the already-incremented counter, firing
when the call number `k` satisfies `(k + 1) % N == 0`). -/
theorem C2_counterexample :
    (runSteps ⟨1, 2, "", 0⟩ ⟨0, 3, 1⟩ 1).global_steps = 1 ∧
    (runSteps ⟨1, 2, "", 0⟩ ⟨0, 3, 1⟩ 1).optimizer = some ⟨1, 0, 1⟩ := by decide

/-- C2 amended: for every `N ≥ 1`, `step()` accumulates `global_samples` by
the configured batch size on every call; and — counting calls on a fresh
engine — call `k + 1` performs the optimizer update, zeroes the gradients and
increments `global_steps` exactly when `(k + 2) % N = 0`, i.e. on calls
`N - 1, 2N - 1, 3N - 1, ...` when `N ≥ 2` and on every call when `N = 1`, and
on no other call. -/
theorem C2_update_schedule (cfgH : HyperCfg) (o : Optimizer) (k : Nat)
    (hN : 1 ≤ cfgH.gradient_accumulation_steps) :
    (runSteps cfgH o (k + 1)).global_samples
        = (runSteps cfgH o k).global_samples + cfgH.batch_size ∧
    ∃ p p', (runSteps cfgH o k).optimizer = some p ∧
      (runSteps cfgH o (k + 1)).optimizer = some p' ∧
      (if (k + 1 + 1) % cfgH.gradient_accumulation_steps = 0 then
        (runSteps cfgH o (k + 1)).global_steps = (runSteps cfgH o k).global_steps + 1 ∧
          p'.stepCount = p.stepCount + 1 ∧ p'.grads = 0
      else
        (runSteps cfgH o (k + 1)).global_steps = (runSteps cfgH o k).global_steps ∧
          p' = p) := by
  obtain ⟨hrun, hmicro, p, hp⟩ := runSteps_spec cfgH o k
  have hmax : max 1 cfgH.gradient_accumulation_steps = cfgH.gradient_accumulation_steps :=
    Nat.max_eq_right hN
  have hsucc : Engine.stepN cfgH (k + 1) (freshEngine o [])
      = (runSteps cfgH o k).step cfgH := by
    rw [Engine.stepN_succ, hrun, except_bind_ok]
  by_cases hfire : (k + 1 + 1) % cfgH.gradient_accumulation_steps = 0
  · have hstep := Engine.step_fire cfgH (runSteps cfgH o k) p hp
      (by rw [hmicro, hmax]; exact hfire)
    have hrun1 : runSteps cfgH o (k + 1)
        = { runSteps cfgH o k with
            micro_steps := (runSteps cfgH o k).micro_steps + 1
            global_samples := (runSteps cfgH o k).global_samples + cfgH.batch_size
            global_steps := (runSteps cfgH o k).global_steps + 1
            optimizer := some { p with stepCount := p.stepCount + 1, grads := 0 } } :=
      runSteps_eq_of_stepN cfgH o (k + 1) _ (by rw [hsucc, hstep])
    rw [hrun1]
    refine ⟨rfl, p, { p with stepCount := p.stepCount + 1, grads := 0 }, hp, rfl, ?_⟩
    rw [if_pos hfire]
    exact ⟨rfl, rfl, rfl⟩
  · have hstep := Engine.step_skip cfgH (runSteps cfgH o k)
      (by rw [hmicro, hmax]; exact hfire)
    have hrun1 : runSteps cfgH o (k + 1)
        = { runSteps cfgH o k with
            micro_steps := (runSteps cfgH o k).micro_steps + 1
            global_samples := (runSteps cfgH o k).global_samples + cfgH.batch_size } :=
      runSteps_eq_of_stepN cfgH o (k + 1) _ (by rw [hsucc, hstep])
    rw [hrun1]
    refine ⟨rfl, p, p, hp, hp, ?_⟩
    rw [if_neg hfire]
    exact ⟨rfl, rfl⟩

/-- Witness for the amended C2 at `N = 3`, first call (`k = 0`). -/
theorem C2_update_schedule_witness :
    1 ≤ (HyperCfg.mk 5 3 ("") 0).gradient_accumulation_steps ∧
    ((runSteps ⟨5, 3, "", 0⟩ ⟨2, 7, 1⟩ (0 + 1)).global_samples
        = (runSteps ⟨5, 3, "", 0⟩ ⟨2, 7, 1⟩ 0).global_samples + (HyperCfg.mk 5 3 ("") 0).batch_size ∧
    ∃ p p', (runSteps ⟨5, 3, "", 0⟩ ⟨2, 7, 1⟩ 0).optimizer = some p ∧
      (runSteps ⟨5, 3, "", 0⟩ ⟨2, 7, 1⟩ (0 + 1)).optimizer = some p' ∧
      (if (0 + 1 + 1) % (HyperCfg.mk 5 3 ("") 0).gradient_accumulation_steps = 0 then
        (runSteps ⟨5, 3, "", 0⟩ ⟨2, 7, 1⟩ (0 + 1)).global_steps
            = (runSteps ⟨5, 3, "", 0⟩ ⟨2, 7, 1⟩ 0).global_steps + 1 ∧
          p'.stepCount = p.stepCount + 1 ∧ p'.grads = 0
      else
        (runSteps ⟨5, 3, "", 0⟩ ⟨2, 7, 1⟩ (0 + 1)).global_steps
            = (runSteps ⟨5, 3, "", 0⟩ ⟨2, 7, 1⟩ 0).global_steps ∧
          p' = p)) :=
  ⟨by decide, C2_update_schedule ⟨5, 3, "", 0⟩ ⟨2, 7, 1⟩ 0 (by decide)⟩

/-! Checkpoint model (`Engine.save_checkpoint` / `Engine.load_checkpoint`,
engines/base.py lines 112-155).  A checkpoint directory is modelled as the
contents the two functions read and write: the plain-text `latest` pointer and
the map `tag -> state.pth`.  Only checkpoints produced by `save_checkpoint`
are modelled: those always carry the `module`, `optimizer`, `lr_scheduler` and
`stats` keys (`optimizer`/`lr_scheduler` possibly `None`), so the legacy
flat-key fallback of `load_checkpoint` (`if 'stats' in state else ...`) reads
the `stats` block. -/

/-- The `stats` block of a saved checkpoint (the four counters, saved under
the singular key names used by the source). -/
structure CkptStats where
  global_step : Nat
  micro_step : Nat
  global_samples : Nat
  tokens_processed : Nat
deriving Repr, DecidableEq

/-- The state dict written to `dir/tag/state.pth` by `save_checkpoint`. -/
structure CkptState where
  module : List (String × Int)
  optimizer : Option Optimizer
  lr_scheduler : Option Int
  stats : CkptStats
deriving Repr, DecidableEq

/-- A checkpoint directory: the `latest` pointer file (absent or the tag it
names) and the association `tag -> state.pth` (first binding wins, so
prepending models overwriting). -/
structure CkptDir where
  latest : Option String
  states : List (String × CkptState)
deriving Repr, DecidableEq

/-- A directory with no `latest` pointer and no checkpoints (also used for a
checkpoint directory that does not exist yet). -/
def emptyCkptDir : CkptDir := ⟨none, []⟩

/-- `module.state_dict()`: parameter names mapped to their weights. -/
def Engine.module_state_dict (e : Engine) : List (String × Int) :=
  e.module.map fun p => (p.name, p.value)

/-- `module.load_state_dict(sd)`: copies the value named by each parameter
from the state dict into that parameter (torch key-strictness checking, which
cannot fire on a same-module round trip, is not modelled). -/
def loadModuleStateDict (ps : List Param) (sd : List (String × Int)) : List Param :=
  ps.map fun p =>
    match sd.lookup p.name with
    | some v => { p with value := v }
    | none => p

/-- Modelled from the spec: `optimizer.load_state_dict` of the repo's `ml`
wrapper optimizer classes (module `vall_e/utils/wrapper.py`, not under src/).
Per the spec checkpoint contract the call restores the optimizer to the saved
state; missing sections are best-effort and must not fail. -/
def Optimizer.load_state_dict (cur : Optimizer) (sd : Option Optimizer) : Optimizer :=
  match sd with
  | some o => o
  | none => cur

/-- `Engine.save_checkpoint(save_dir, tag)`: writes the module state dict, the
optimizer / scheduler state dicts (or `None`), and the four counters under
`stats` to `save_dir/tag/state.pth`, then writes `tag` into
`save_dir/latest`. -/
def Engine.save_checkpoint (e : Engine) (dir : CkptDir) (tag : String) : CkptDir :=
  { states :=
      (tag,
        { module := e.module_state_dict
          optimizer := e.optimizer
          lr_scheduler := e.lr_scheduler
          stats :=
            { global_step := e.global_steps
              micro_step := e.micro_steps
              global_samples := e.global_samples
              tokens_processed := e.tokens_processed } }) :: dir.states
    latest := some tag }

/-- `Engine.load_checkpoint(load_dir, tag, ...)`: resolves a missing tag via
the `latest` pointer (returning unchanged when the pointer file is absent),
returns unchanged when `load_dir/tag/state.pth` is absent, otherwise restores
the four counters and the module weights, and restores optimizer / scheduler
state only when requested and held by both sides (`load_module_strict` and
`load_module_only` are accepted and ignored by the source body, which passes
no strictness flag to `module.load_state_dict`). -/
def Engine.load_checkpoint (e : Engine) (dir : CkptDir) (tag : Option String)
    (load_module_strict load_optimizer_states load_lr_scheduler_states load_module_only :
      Bool) : Engine :=
  let tagR : Option String :=
    match tag with
    | some t => some t
    | none => dir.latest
  match tagR with
  | none => e
  | some t =>
    match dir.states.lookup t with
    | none => e
    | some st =>
      let e1 := { e with
        global_steps := st.stats.global_step
        micro_steps := st.stats.micro_step
        global_samples := st.stats.global_samples
        tokens_processed := st.stats.tokens_processed
        module := loadModuleStateDict e.module st.module }
      let lo := load_optimizer_states && e1.optimizer.isSome
      let ls := load_lr_scheduler_states && e1.lr_scheduler.isSome
      let e2 :=
        if lo then
          { e1 with optimizer := (e1.optimizer.map (·.load_state_dict st.optimizer)) }
        else e1
      if ls then
        { e2 with lr_scheduler := e2.lr_scheduler.map fun cur => st.lr_scheduler.getD cur }
      else e2

/-- Looking a parameter's own name up in the module's state dict returns its
own value, provided parameter names are distinct (torch's `named_parameters`
yields each dotted name once, being keys of a dict). -/
theorem lookup_own_state_dict (ps : List Param) (hnodup : (ps.map Param.name).Nodup) :
    ∀ p ∈ ps, (ps.map fun q => (q.name, q.value)).lookup p.name = some p.value := by
  induction ps with
  | nil => intro p hp; cases hp
  | cons q rest ih =>
    intro p hp
    rcases List.mem_cons.mp hp with hq | hrest
    · subst hq
      simp [List.lookup]
    · have hnamene : p.name ≠ q.name := by
        intro hcontra
        have hqnotin : q.name ∉ rest.map Param.name := (List.nodup_cons.mp hnodup).1
        exact hqnotin (hcontra ▸ List.mem_map_of_mem Param.name hrest)
      have hbeq : (p.name == q.name) = false := beq_eq_false_iff_ne.mpr hnamene
      simp only [List.map_cons, List.lookup, hbeq]
      exact ih (List.nodup_cons.mp hnodup).2 p hrest

/-- Loading a module's own state dict restores the module exactly. -/
theorem load_own_state_dict (ps : List Param) (hnodup : (ps.map Param.name).Nodup) :
    loadModuleStateDict ps (ps.map fun q => (q.name, q.value)) = ps := by
  unfold loadModuleStateDict
  have hcongr : ∀ p ∈ ps,
      (match (ps.map fun q => (q.name, q.value)).lookup p.name with
        | some v => { p with value := v }
        | none => p) = p := by
    intro p hp
    rw [lookup_own_state_dict ps hnodup p hp]
  rw [List.map_congr_left hcongr]
  exact List.map_id ps

/-- C5: saving a checkpoint and loading it back (same directory and tag)
restores all four counters and the module weights exactly, whether or not the
engine carries an optimizer (so whether or not optimizer state is present in
the checkpoint). -/
theorem C5_checkpoint_roundtrip (e : Engine) (dir : CkptDir) (tag : String)
    (hnodup : (e.module.map Param.name).Nodup) :
    ((e.save_checkpoint dir tag) |> fun dir' =>
      let e' := e.load_checkpoint dir' (some tag) true true true false
      e'.global_steps = e.global_steps ∧ e'.micro_steps = e.micro_steps ∧
      e'.global_samples = e.global_samples ∧ e'.tokens_processed = e.tokens_processed ∧
      e'.module = e.module) := by
  have hmod := load_own_state_dict e.module hnodup
  simp only [Engine.load_checkpoint, Engine.save_checkpoint, Engine.module_state_dict,
    List.lookup, beq_self_eq_true]
  split <;> split <;> simp [hmod]

/-- C6: `load_checkpoint` with no tag and no `latest` pointer, or with a tag
whose `state.pth` does not exist, returns the engine completely unchanged and
raises nothing, for every combination of the loading flags. -/
theorem C6_load_checkpoint_noop (e : Engine) (dir : CkptDir) (tag : Option String)
    (s os ss mo : Bool)
    (h : (tag = none ∧ dir.latest = none) ∨
      ∃ t, tag = some t ∧ dir.states.lookup t = none) :
    e.load_checkpoint dir tag s os ss mo = e := by
  rcases h with ⟨ht, hl⟩ | ⟨t, ht, hlk⟩
  · subst ht
    simp only [Engine.load_checkpoint, hl]
  · subst ht
    simp only [Engine.load_checkpoint, hlk]

/-- A concrete engine used by checkpoint witnesses: one weight, an optimizer,
nonzero counters. -/
def sampleEngine : Engine :=
  { module := [⟨"w", 5, true⟩]
    optimizer := some ⟨1, 2, 3⟩
    lr_scheduler := some 4
    global_steps := 7
    micro_steps := 8
    global_samples := 9
    tokens_processed := 10
    cfgOpt := none
    frozenParams := []
    mocro_step := none }

/-- Witness for C5 at a concrete engine, exercised both with an optimizer
present and with no optimizer (so no optimizer state in the checkpoint). -/
theorem C5_checkpoint_roundtrip_witness :
    ((sampleEngine.module.map Param.name).Nodup ∧
      ((sampleEngine.save_checkpoint emptyCkptDir ("100")) |> fun dir' =>
        let e' := sampleEngine.load_checkpoint dir' (some ("100")) true true true false
        e'.global_steps = sampleEngine.global_steps ∧
        e'.micro_steps = sampleEngine.micro_steps ∧
        e'.global_samples = sampleEngine.global_samples ∧
        e'.tokens_processed = sampleEngine.tokens_processed ∧
        e'.module = sampleEngine.module)) ∧
    ((({ sampleEngine with optimizer := none }).module.map Param.name).Nodup ∧
      ((({ sampleEngine with optimizer := none }).save_checkpoint emptyCkptDir ("100")) |>
        fun dir' =>
        let e' := ({ sampleEngine with optimizer := none }).load_checkpoint dir'
          (some ("100")) true true true false
        e'.global_steps = ({ sampleEngine with optimizer := none }).global_steps ∧
        e'.micro_steps = ({ sampleEngine with optimizer := none }).micro_steps ∧
        e'.global_samples = ({ sampleEngine with optimizer := none }).global_samples ∧
        e'.tokens_processed = ({ sampleEngine with optimizer := none }).tokens_processed ∧
        e'.module = ({ sampleEngine with optimizer := none }).module)) :=
  ⟨⟨by decide, C5_checkpoint_roundtrip sampleEngine emptyCkptDir ("100") (by decide)⟩,
    ⟨by decide, C5_checkpoint_roundtrip { sampleEngine with optimizer := none }
      emptyCkptDir ("100") (by decide)⟩⟩

/-- Witness for C6: loading from an empty directory with no tag, and loading a
missing tag, both leave the sample engine unchanged. -/
theorem C6_load_checkpoint_noop_witness :
    (((none : Option String) = none ∧ emptyCkptDir.latest = none) ∨
      (∃ t, (none : Option String) = some t ∧ emptyCkptDir.states.lookup t = none)) ∧
    sampleEngine.load_checkpoint emptyCkptDir none true true true false = sampleEngine :=
  ⟨Or.inl ⟨rfl, rfl⟩,
    C6_load_checkpoint_noop sampleEngine emptyCkptDir none true true true false
      (Or.inl ⟨rfl, rfl⟩)⟩

/-! Multi-engine coordinator (`Engines`, engines/base.py lines 224-480). -/

/-- Trainer configuration (`cfg.trainer`), restricted to the fields the
modelled operations read. -/
structure TrainerCfg where
  load_tag : String
  strict_loading : Bool
  load_module_only : Bool
  load_states : Bool
  restart_step_count : Bool
  check_for_oom : Bool
deriving Repr, DecidableEq

/-- `Engine._training`: `True` when no `_cfg` attribute is bound, else
`_cfg.training`. -/
def Engine.training (e : Engine) : Bool :=
  match e.cfgOpt with
  | none => true
  | some c => c.training

/-- `Engine.set_lr(lr)`: writes `lr` into every optimizer parameter group;
raises `AttributeError` when the optimizer is `None` (Python dereferences
`self.optimizer.param_groups`). -/
def Engine.set_lr (lr : Int) (e : Engine) : Except PyErr Engine :=
  match e.optimizer with
  | none => .error (.attributeError ("NoneType object has no attribute param_groups"))
  | some o => .ok { e with optimizer := some { o with lr := lr } }

/-- The engine collection.  The aggregate fields model `_global_step`,
`_micro_step`, `_batch_size`, `_global_samples` (set to `0` by `setup()`). -/
structure Engines where
  engines : List (String × Engine)
  agg_global_step : Nat
  agg_micro_step : Nat
  agg_batch_size : Nat
  agg_global_samples : Nat
deriving Repr, DecidableEq

/-- An engine collection as built by the constructor (aggregates zeroed). -/
def mkEngines (l : List (String × Engine)) : Engines := ⟨l, 0, 0, 0, 0⟩

/-- `Engines._update`: folds each aggregate counter to the maximum over the
member engines (`engine.batch_size` reads the configured batch size). -/
def Engines.update (cfgH : HyperCfg) (es : Engines) : Engines :=
  { es with
    agg_global_step := es.engines.foldl (fun a pr => max a pr.2.global_steps) es.agg_global_step
    agg_micro_step := es.engines.foldl (fun a pr => max a pr.2.micro_steps) es.agg_micro_step
    agg_batch_size := es.engines.foldl (fun a _ => max a cfgH.batch_size) es.agg_batch_size
    agg_global_samples :=
      es.engines.foldl (fun a pr => max a pr.2.global_samples) es.agg_global_samples }

/-- `Engines.set_lr` over the member list: training engines get the new
learning rate, the others are skipped; the first exception propagates. -/
def setLrList (lr : Int) : List (String × Engine) → Except PyErr (List (String × Engine))
  | [] => .ok []
  | pr :: rest =>
    match (if pr.2.training then (pr.2.set_lr lr).map (fun e1 => (pr.1, e1)) else .ok pr) with
    | .error err => .error err
    | .ok hd =>
      match setLrList lr rest with
      | .error err => .error err
      | .ok tl => .ok (hd :: tl)

/-- `Engines.set_lr(lr)`. -/
def Engines.set_lr (lr : Int) (es : Engines) : Except PyErr Engines :=
  (setLrList lr es.engines).map fun l => { es with engines := l }

/-- Tag resolution at the head of `Engines.load_checkpoint`:
`if not tag: tag = cfg.trainer.load_tag` (`not tag` is true for `None` and for
the empty string). -/
def resolveLoadTag (cfgT : TrainerCfg) (tag : Option String) : String :=
  match tag with
  | none => cfgT.load_tag
  | some s => if s = "" then cfgT.load_tag else s

/-- The per-engine body of `Engines.load_checkpoint` (lines 312-326): load the
engine's checkpoint from its per-name directory, then — when
`restart_step_count` is set — zero `global_steps`, `global_samples` and
`tokens_processed` and assign `0` to the (misspelt, hence fresh) attribute
`mocro_step`, leaving `micro_steps` untouched. -/
def loadOneEngine (cfgT : TrainerCfg) (fs : List (String × CkptDir)) (t : String)
    (pr : String × Engine) : String × Engine :=
  let load_dir := (fs.lookup pr.1).getD emptyCkptDir
  let e1 := pr.2.load_checkpoint load_dir (some t) cfgT.strict_loading
    (if cfgT.load_module_only then false else cfgT.load_states)
    (if cfgT.load_module_only then false else cfgT.load_states)
    cfgT.load_module_only
  if cfgT.restart_step_count then
    (pr.1, { e1 with
      global_steps := 0
      mocro_step := some 0
      global_samples := 0
      tokens_processed := 0 })
  else (pr.1, e1)

/-- `Engines.load_checkpoint(tag)`: resolve the tag, run the per-engine load
(and optional restart reset), re-apply the configured learning rate when no
scheduler is configured (`cfg.hyperparameters.scheduler_type == ""`), then
refresh the aggregate counters.  `fs` maps engine names to their checkpoint
directories (`cfg.ckpt_dir / name`). -/
def Engines.load_checkpoint (cfgT : TrainerCfg) (cfgH : HyperCfg)
    (fs : List (String × CkptDir)) (tag : Option String) (es : Engines) :
    Except PyErr Engines :=
  let t := resolveLoadTag cfgT tag
  let es1 : Engines := { es with engines := es.engines.map (loadOneEngine cfgT fs t) }
  let stage2 : Except PyErr Engines :=
    if cfgH.scheduler_type = "" then es1.set_lr cfgH.learning_rate else .ok es1
  stage2.map fun es2 => es2.update cfgH

/-- What C10 asserts of one engine after `Engines.load_checkpoint` with
`restart_step_count`: name kept, `global_steps`, `global_samples`,
`tokens_processed` zeroed, a fresh `mocro_step` attribute set to `0`, and
`micro_steps` exactly as the checkpoint restore left it. -/
def restartResetSpec (cfgT : TrainerCfg) (fs : List (String × CkptDir)) (t : String)
    (pr pr' : String × Engine) : Prop :=
  pr'.1 = pr.1 ∧
  pr'.2.global_steps = 0 ∧
  pr'.2.global_samples = 0 ∧
  pr'.2.tokens_processed = 0 ∧
  pr'.2.mocro_step = some 0 ∧
  pr'.2.micro_steps = (pr.2.load_checkpoint ((fs.lookup pr.1).getD emptyCkptDir)
    (some t) cfgT.strict_loading
    (if cfgT.load_module_only then false else cfgT.load_states)
    (if cfgT.load_module_only then false else cfgT.load_states)
    cfgT.load_module_only).micro_steps

/-- `set_lr` leaves the name and every counter (and the `mocro_step`
attribute) of a member unchanged: it only touches the optimizer. -/
theorem setLrHead_preserves (lr : Int) (pr hd : String × Engine)
    (h : (if pr.2.training then (pr.2.set_lr lr).map (fun e1 => (pr.1, e1)) else .ok pr)
      = .ok hd) :
    hd.1 = pr.1 ∧ hd.2.global_steps = pr.2.global_steps ∧
    hd.2.micro_steps = pr.2.micro_steps ∧
    hd.2.global_samples = pr.2.global_samples ∧
    hd.2.tokens_processed = pr.2.tokens_processed ∧
    hd.2.mocro_step = pr.2.mocro_step := by
  split at h
  · cases hop : pr.2.optimizer with
    | none => rw [Engine.set_lr, hop] at h; cases h
    | some o =>
      rw [Engine.set_lr, hop] at h
      cases h
      exact ⟨rfl, rfl, rfl, rfl, rfl, rfl⟩
  · cases h
    exact ⟨rfl, rfl, rfl, rfl, rfl, rfl⟩

/-- A successful `setLrList` run preserves names and counters pointwise. -/
theorem setLrList_preserves (lr : Int) (l l' : List (String × Engine))
    (h : setLrList lr l = .ok l') :
    List.Forall₂ (fun pr pr' => pr'.1 = pr.1 ∧
      pr'.2.global_steps = pr.2.global_steps ∧
      pr'.2.micro_steps = pr.2.micro_steps ∧
      pr'.2.global_samples = pr.2.global_samples ∧
      pr'.2.tokens_processed = pr.2.tokens_processed ∧
      pr'.2.mocro_step = pr.2.mocro_step) l l' := by
  induction l generalizing l' with
  | nil =>
    unfold setLrList at h
    cases h
    exact List.Forall₂.nil
  | cons pr rest ih =>
    unfold setLrList at h
    split at h
    · cases h
    · rename_i hd heq
      split at h
      · cases h
      · rename_i tl heq2
        cases h
        have hh := setLrHead_preserves lr pr hd heq
        exact List.Forall₂.cons ⟨hh.1, hh.2.1, hh.2.2.1, hh.2.2.2.1, hh.2.2.2.2.1,
          hh.2.2.2.2.2⟩ (ih tl heq2)

/-- Composition of pointwise relations along a middle list. -/
theorem forall₂_compose {α β γ : Type} {r : α → β → Prop} {s : β → γ → Prop}
    {t : α → γ → Prop} (hcomp : ∀ a b c, r a b → s b c → t a c) :
    ∀ {l₁ : List α} {l₂ : List β} {l₃ : List γ},
      List.Forall₂ r l₁ l₂ → List.Forall₂ s l₂ l₃ → List.Forall₂ t l₁ l₃ := by
  intro l₁ l₂ l₃ h1
  induction h1 generalizing l₃ with
  | nil =>
    intro h2
    cases h2
    exact List.Forall₂.nil
  | cons hab _ ih =>
    intro h2
    cases h2 with
    | cons hbc h2t => exact List.Forall₂.cons (hcomp _ _ _ hab hbc) (ih h2t)

/-- C10: whenever `Engines.load_checkpoint` completes with `restart_step_count`
enabled, every engine in the collection comes out with `global_steps`,
`global_samples` and `tokens_processed` reset to `0` and a fresh attribute
named `mocro_step` set to `0`, while `micro_steps` is exactly what the
checkpoint restore produced — the reset block never touches it (the source
assigns `engine.mocro_step = 0` instead of `engine.micro_steps = 0`). -/
theorem C10_restart_leaves_micro_steps (cfgT : TrainerCfg) (cfgH : HyperCfg)
    (fs : List (String × CkptDir)) (tag : Option String) (es es' : Engines)
    (hrestart : cfgT.restart_step_count = true)
    (hok : Engines.load_checkpoint cfgT cfgH fs tag es = .ok es') :
    List.Forall₂ (restartResetSpec cfgT fs (resolveLoadTag cfgT tag))
      es.engines es'.engines := by
  have hone : ∀ pr : String × Engine,
      restartResetSpec cfgT fs (resolveLoadTag cfgT tag) pr
        (loadOneEngine cfgT fs (resolveLoadTag cfgT tag) pr) := by
    intro pr
    unfold loadOneEngine restartResetSpec
    rw [hrestart]
    simp
  have hmap : List.Forall₂ (restartResetSpec cfgT fs (resolveLoadTag cfgT tag))
      es.engines (es.engines.map (loadOneEngine cfgT fs (resolveLoadTag cfgT tag))) := by
    rw [List.forall₂_map_right_iff]
    exact List.forall₂_same.mpr fun pr _ => hone pr
  simp only [Engines.load_checkpoint] at hok
  by_cases hsch : cfgH.scheduler_type = ""
  · rw [if_pos hsch] at hok
    unfold Engines.set_lr at hok
    cases hsl : setLrList cfgH.learning_rate
        (es.engines.map (loadOneEngine cfgT fs (resolveLoadTag cfgT tag))) with
    | error err =>
      rw [hsl] at hok
      simp only [Except.map] at hok
      cases hok
    | ok l2 =>
      rw [hsl] at hok
      simp only [Except.map] at hok
      cases hok
      have hpres := setLrList_preserves cfgH.learning_rate _ l2 hsl
      exact forall₂_compose
        (fun a b c hab hbc => by
          obtain ⟨h1, h2, h3, h4, h5, h6⟩ := hab
          obtain ⟨g1, g2, g3, g4, g5, g6⟩ := hbc
          exact ⟨g1.trans h1, g2.trans h2, g4.trans h3, g5.trans h4, g6.trans h5,
            g3.trans h6⟩)
        hmap hpres
  · rw [if_neg hsch] at hok
    simp only [Except.map] at hok
    cases hok
    exact hmap

/-- Trainer configuration used by concrete witnesses (restart enabled). -/
def sampleTrainerCfg : TrainerCfg :=
  { load_tag := "100"
    strict_loading := true
    load_module_only := false
    load_states := true
    restart_step_count := true
    check_for_oom := true }

/-- Witness for C10: one-engine collection, empty checkpoint directory,
restart enabled; the run succeeds and the reset leaves `micro_steps = 8`
(the engine's value) while zeroing the other three counters and creating
`mocro_step = 0`. -/
theorem C10_restart_leaves_micro_steps_witness :
    sampleTrainerCfg.restart_step_count = true ∧
    Engines.load_checkpoint sampleTrainerCfg ⟨3, 2, "none", 0⟩ [] none
        (mkEngines [("ar", sampleEngine)])
      = .ok ⟨[("ar", { sampleEngine with
          global_steps := 0
          mocro_step := some 0
          global_samples := 0
          tokens_processed := 0 })], 0, 8, 3, 0⟩ ∧
    List.Forall₂ (restartResetSpec sampleTrainerCfg [] (resolveLoadTag sampleTrainerCfg none))
      (mkEngines [("ar", sampleEngine)]).engines
      (Engines.mk [("ar", { sampleEngine with
          global_steps := 0
          mocro_step := some 0
          global_samples := 0
          tokens_processed := 0 })] 0 8 3 0).engines :=
  ⟨rfl, rfl,
    C10_restart_leaves_micro_steps sampleTrainerCfg ⟨3, 2, "none", 0⟩ [] none
      (mkEngines [("ar", sampleEngine)]) _ rfl rfl⟩

/-! Parameter freezing (`Engine.freeze`, engines/base.py lines 69-77). -/

/-- `Engine.freeze(freeze_all=True)`.  The guard
`if self._cfg is None or not hasattr(self._cfg, "frozen_params"): raise ...`
runs unconditionally, before and regardless of `freeze_all` (when the `_cfg`
attribute was never bound, Python already raises `AttributeError` at the
`self._cfg` read; both failure modes are modelled as the raise).  On the
success path, each parameter that is currently trainable (when `freeze_all`)
or whose name is listed in `_cfg.frozen_params` (when not) gets
`requires_grad_(False)` and is added to `_frozen_params`. -/
def Engine.freeze (e : Engine) (freeze_all : Bool) : Except PyErr Engine :=
  match e.cfgOpt with
  | none => .error (.exceptionErr ("freeze_all=False yet self._cfg.frozen_params is None"))
  | some c =>
    match c.frozen_params with
    | none => .error (.exceptionErr ("freeze_all=False yet self._cfg.frozen_params is None"))
    | some fp =>
      let hit := fun (p : Param) =>
        (freeze_all && p.requires_grad) || (!freeze_all && fp.contains p.name)
      .ok { e with
        module := e.module.map fun p =>
          if hit p then { p with requires_grad := false } else p
        frozenParams := e.frozenParams ++ (e.module.filter hit).map Param.name }

/-- C7 counter-evidence: `freeze(freeze_all=True)` on an engine with no bound
configuration raises (the guard is not restricted to `freeze_all=False`, as
its own error message says it should be), instead of freezing the engine's
one trainable parameter as the claim requires. -/
theorem C7_freeze_all_raises_without_cfg :
    (freshEngine ⟨0, 0, 1⟩ [⟨"w", 5, true⟩]).freeze true
      = .error (.exceptionErr ("freeze_all=False yet self._cfg.frozen_params is None")) := rfl

/-! Distributed context (`vall_e/utils/distributed.py`).  Python name-binding
semantics are made explicit: a function-body assignment without a `global`
declaration binds into the function's local scope. -/

/-- A Python scope for this module's flag values: variable name to value. -/
abbrev PyScope := List (String × Bool)

/-- The module globals right after `import`:
`_distributed_initialized = False` (distributed.py line 17). -/
def distGlobals0 : PyScope := [("_distributed_initialized", false)]

/-- `init_distributed(fn, *args, **kwargs)` (lines 18-20): calls `fn`
(an external process-group initializer that does not touch this module's
globals), then executes `_distributed_initialized = True`.  The assignment has
no `global` declaration, so it binds a fresh local; the function returns the
pair (module globals at exit, function locals at exit), the locals being
discarded by Python on return. -/
def init_distributed (globalsEnv : PyScope) : PyScope × PyScope :=
  let localsEnv : PyScope := [("_distributed_initialized", true)]
  (globalsEnv, localsEnv)

/-- `distributed_initialized()` (lines 22-23): a bare read of the flag, which
resolves in the module's global scope (the function has no local binding of
that name). -/
def distributed_initialized (globalsEnv : PyScope) : Bool :=
  (globalsEnv.lookup ("_distributed_initialized")).getD false

/-- Module states reachable in any run: the import-time state, closed under
calls to `init_distributed` — the only code in the repository that assigns the
flag at all. -/
inductive ReachableDistState : PyScope → Prop
  | init : ReachableDistState distGlobals0
  | step (g : PyScope) : ReachableDistState g → ReachableDistState (init_distributed g).1

/-- C9: `distributed_initialized()` returns `False` in every reachable module
state, also after any number of `init_distributed` calls: the assignment in
`init_distributed` binds a function-local variable, never the module-level
flag. -/
theorem C9_distributed_initialized_always_false (g : PyScope)
    (h : ReachableDistState g) : distributed_initialized g = false := by
  induction h with
  | init => rfl
  | step g hg ih => exact ih

/-- Witness for C9 after one `init_distributed` call. -/
theorem C9_distributed_initialized_always_false_witness :
    ReachableDistState (init_distributed distGlobals0).1 ∧
    distributed_initialized (init_distributed distGlobals0).1 = false :=
  ⟨.step distGlobals0 .init,
    C9_distributed_initialized_always_false (init_distributed distGlobals0).1
      (.step distGlobals0 .init)⟩

/-! Out-of-memory recovery in `Engines.step` (engines/base.py lines 362-449),
modelled for one trainable engine in a single-process run
(`world_size() == 1`, so the `all_reduce` calls are skipped) with
`cfg.trainer.check_for_oom` enabled. -/

/-- A batch: named fields, each a list of per-sample entries (only the sample
dimension matters here); `batch[k] = batch[k][:-1]` drops the last sample. -/
abbrev Batch := List (String × List Int)

/-- The batch-shrinking step `for k in batch: batch[k] = batch[k][:-1]`. -/
def shrinkBatch (b : Batch) : Batch := b.map fun pr => (pr.1, pr.2.dropLast)

/-- The source's OOM test: `"out of memory" in str(e)` (substring match on
the error text). -/
def isOOMError (msg : String) : Bool :=
  decide ("out of memory".toList <:+: msg.toList)

/-- State of the forward retry loop: the retry budget `tries` (initial 4),
the OOM flag accumulator `n_ooms` (a scalar tensor in the source) and the
current batch. -/
structure FwdLoopState where
  tries : Int
  n_ooms : Nat
  batch : Batch
deriving Repr, DecidableEq

/-- How one run of the `while tries >= 0` loop can end within a given
iteration bound: `success` = the feeder returned and the loop hit `break`;
`fatal` = a non-OOM `RuntimeError` was re-raised (after the emergency
checkpoint save); `exited` = the loop condition became false (falling through
to the post-loop code with `res` unbound); `spinning` = the iteration bound
was exhausted with the loop still running. -/
inductive FwdLoopResult where
  | success (res : Option (Int × List (String × Int))) (st : FwdLoopState)
  | fatal (err : PyErr) (st : FwdLoopState)
  | exited (st : FwdLoopState)
  | spinning (st : FwdLoopState)
deriving Repr, DecidableEq

/-- The forward retry loop (lines 389-410) as a fuel-indexed step function;
`attempt` counts feeder invocations so a test feeder can fail on chosen
attempts.  One iteration: while `tries >= 0`, call the feeder and `break` on
success; on a `RuntimeError` without "out of memory" in its text, re-raise
(fatal); otherwise drop the last element of every batch field and — `tries`
is never decremented anywhere in the loop — if `tries <= 0` bump `n_ooms`,
else run garbage collection (no modelled effect), then `continue`. -/
def fwdLoop (feeder : Nat → Batch → Except String (Option (Int × List (String × Int)))) :
    Nat → Nat → FwdLoopState → FwdLoopResult
  | _, 0, st => .spinning st
  | attempt, fuel + 1, st =>
    if st.tries ≥ 0 then
      match feeder attempt st.batch with
      | .ok res => .success res st
      | .error msg =>
        if isOOMError msg = false then .fatal (.runtimeError msg) st
        else
          let st1 : FwdLoopState := { st with batch := shrinkBatch st.batch }
          let st2 : FwdLoopState :=
            if st1.tries ≤ 0 then { st1 with n_ooms := st1.n_ooms + 1 } else st1
          fwdLoop feeder (attempt + 1) fuel st2
    else .exited st

/-- `Engine.backward(loss)`: `(loss / gradient_accumulation_steps).backward()`
accumulates gradients into the parameters, modelled as bumping the abstract
accumulated-gradient counter (the scaled loss value itself lives in torch
tensors outside this embedding). -/
def Engine.backward (e : Engine) : Engine :=
  { e with optimizer := e.optimizer.map fun o => { o with grads := o.grads + 1 } }

/-- Outcome of the per-engine body of `Engines.step` for one trainable
engine. -/
inductive StepOutcome where
  | ok (e : Engine) (skipped : Bool)
  | raised (err : PyErr)
  | spinning
deriving Repr, DecidableEq

/-- The per-engine body of `Engines.step` with OOM checking on, single
process: run the forward retry loop from `tries = 4`, `n_ooms = 0`; re-raise
a fatal error; after the loop raise "Out of memory during forward pass!" when
`n_ooms > 0`; a `None` feeder result skips the engine (`continue`); otherwise
run the backward pass under the same OOM discipline (`bw` supplies its
outcome), then call `engine.step()`. -/
def engineStepBody (cfgH : HyperCfg)
    (feeder : Nat → Batch → Except String (Option (Int × List (String × Int))))
    (bw : Except String Unit) (fuel : Nat) (e : Engine) (batch : Batch) : StepOutcome :=
  match fwdLoop feeder 0 fuel ⟨4, 0, batch⟩ with
  | .spinning _ => .spinning
  | .fatal err _ => .raised err
  | .exited _ => .raised (.exceptionErr ("NameError: name res is not defined"))
  | .success res st =>
    if st.n_ooms > 0 then .raised (.runtimeError ("Out of memory during forward pass!"))
    else
      match res with
      | none => .ok e true
      | some _ =>
        match bw with
        | .error msg =>
          if isOOMError msg = false then .raised (.runtimeError msg)
          else .raised (.runtimeError ("Out of memory during backwards pass!"))
        | .ok _ =>
          match (e.backward).step cfgH with
          | .error err => .raised err
          | .ok e1 => .ok e1 false

/-- A feeder whose forward pass exhausts memory on every attempt. -/
def alwaysOOMFeeder : Nat → Batch → Except String (Option (Int × List (String × Int))) :=
  fun _ _ => .error ("CUDA out of memory")

/-- `n`-fold batch shrinkage. -/
def iterShrink : Nat → Batch → Batch
  | 0, b => b
  | n + 1, b => iterShrink n (shrinkBatch b)

/-- One OOM iteration of the retry loop from the initial `tries = 4`,
`n_ooms = 0` state: shrink the batch and loop again (the budget stays 4). -/
theorem fwdLoop_oom_step
    (feeder : Nat → Batch → Except String (Option (Int × List (String × Int))))
    (attempt fuel : Nat) (b : Batch) (msg : String)
    (herr : feeder attempt b = .error msg) (hmsg : isOOMError msg = true) :
    fwdLoop feeder attempt (fuel + 1) ⟨4, 0, b⟩
      = fwdLoop feeder (attempt + 1) fuel ⟨4, 0, shrinkBatch b⟩ := by
  conv_lhs => unfold fwdLoop
  rw [if_pos (by norm_num : ((4 : Int) ≥ 0)), herr]
  show (if isOOMError msg = false then
      FwdLoopResult.fatal (.runtimeError msg) ⟨4, 0, b⟩
    else fwdLoop feeder (attempt + 1) fuel
      (if ((4 : Int) ≤ 0) then ⟨4, 0 + 1, shrinkBatch b⟩ else ⟨4, 0, shrinkBatch b⟩))
    = fwdLoop feeder (attempt + 1) fuel ⟨4, 0, shrinkBatch b⟩
  rw [hmsg]
  rw [if_neg (by simp : ¬ (true = false))]
  rw [if_neg (by norm_num : ¬ ((4 : Int) ≤ 0))]

/-- A successful feeder call ends the loop at once with the current state. -/
theorem fwdLoop_success_step
    (feeder : Nat → Batch → Except String (Option (Int × List (String × Int))))
    (attempt fuel : Nat) (b : Batch) (res : Option (Int × List (String × Int)))
    (hok : feeder attempt b = .ok res) :
    fwdLoop feeder attempt (fuel + 1) ⟨4, 0, b⟩ = .success res ⟨4, 0, b⟩ := by
  conv_lhs => unfold fwdLoop
  dsimp only
  rw [if_pos (by norm_num : ((4 : Int) ≥ 0)), hok]

/-- C3 (what the code actually does): with OOM checking enabled and a feeder
that exhausts memory on every attempt, the forward retry loop of
`Engines.step` never terminates: for every iteration bound it is still
running, the retry budget still holds its initial value 4 (the loop body
never decrements `tries`), `n_ooms` is still 0 (the `tries <= 0` branch that
would flag the fatal out-of-memory error is unreachable), and no fatal
out-of-memory error is ever raised. -/
theorem C3_retry_loop_unbounded (fuel : Nat) (b : Batch) :
    fwdLoop alwaysOOMFeeder 0 fuel ⟨4, 0, b⟩ = .spinning ⟨4, 0, iterShrink fuel b⟩ := by
  have hoom : isOOMError ("CUDA out of memory") = true := by decide
  have general : ∀ (fl attempt : Nat) (bb : Batch),
      fwdLoop alwaysOOMFeeder attempt fl ⟨4, 0, bb⟩
        = .spinning ⟨4, 0, iterShrink fl bb⟩ := by
    intro fl
    induction fl with
    | zero => intro attempt bb; rfl
    | succ fl ih =>
      intro attempt bb
      rw [fwdLoop_oom_step alwaysOOMFeeder attempt fl bb ("CUDA out of memory") rfl hoom]
      exact ih (attempt + 1) (shrinkBatch bb)
  exact general fuel 0 b

example : isOOMError ("CUDA out of memory") = true := by decide

example : isOOMError ("device-side assert triggered") = false := by decide

/-- C4: with OOM checking enabled, for every batch and every feeder that
raises a memory-exhaustion error on its first invocation and succeeds on its
second — which receives the batch with the last element of every field
dropped — the per-engine body of `Engines.step` completes with no top-level
failure: the retry succeeds and the engine advances by one micro-step. -/
theorem C4_oom_retry_succeeds (cfgH : HyperCfg) (e : Engine) (o : Optimizer)
    (batch : Batch) (msg : String) (loss : Int) (stats : List (String × Int))
    (feeder : Nat → Batch → Except String (Option (Int × List (String × Int))))
    (fuel : Nat)
    (ho : e.optimizer = some o)
    (hfuel : 2 ≤ fuel)
    (hmsg : isOOMError msg = true)
    (h0 : feeder 0 batch = .error msg)
    (h1 : feeder 1 (shrinkBatch batch) = .ok (some (loss, stats))) :
    ∃ e', engineStepBody cfgH feeder (.ok ()) fuel e batch = .ok e' false ∧
      e'.micro_steps = e.micro_steps + 1 ∧
      e'.global_samples = e.global_samples + cfgH.batch_size := by
  obtain ⟨f, rfl⟩ : ∃ f, fuel = f + 2 := ⟨fuel - 2, by omega⟩
  have hb : (e.backward).optimizer = some { o with grads := o.grads + 1 } := by
    simp [Engine.backward, ho]
  obtain ⟨e1, o1, hstepN, ho1, hm, hs, -, -⟩ :=
    Engine.stepN_invariant cfgH 1 e.backward { o with grads := o.grads + 1 } hb
  have hconv : Engine.stepN cfgH 1 e.backward = (e.backward).step cfgH := by
    show ((e.backward).step cfgH).bind (Engine.stepN cfgH 0) = _
    cases hq : (e.backward).step cfgH with
    | error err => rw [except_bind_error]
    | ok x => rw [except_bind_ok]; rfl
  rw [hconv] at hstepN
  have hloop : fwdLoop feeder 0 (f + 2) ⟨4, 0, batch⟩
      = .success (some (loss, stats)) ⟨4, 0, shrinkBatch batch⟩ := by
    show fwdLoop feeder 0 (f + 1 + 1) ⟨4, 0, batch⟩ = _
    rw [fwdLoop_oom_step feeder 0 (f + 1) batch msg h0 hmsg]
    exact fwdLoop_success_step feeder 1 f (shrinkBatch batch) (some (loss, stats)) h1
  refine ⟨e1, ?_, ?_, ?_⟩
  · unfold engineStepBody
    rw [hloop]
    show (if (0 : Nat) > 0 then
        StepOutcome.raised (.runtimeError ("Out of memory during forward pass!"))
      else
        match (e.backward).step cfgH with
        | .error err => StepOutcome.raised err
        | .ok e2 => StepOutcome.ok e2 false) = StepOutcome.ok e1 false
    rw [if_neg (by omega : ¬ ((0 : Nat) > 0)), hstepN]
  · exact hm
  · simpa [Engine.backward] using hs

/-- A feeder that exhausts memory on attempt 0 and succeeds afterwards. -/
def onceOOMFeeder : Nat → Batch → Except String (Option (Int × List (String × Int))) :=
  fun attempt _ => if attempt = 0 then .error ("CUDA out of memory") else .ok (some (7, []))

/-- Witness for C4 at a concrete engine, batch and feeder. -/
theorem C4_oom_retry_succeeds_witness :
    (sampleEngine.optimizer = some ⟨1, 2, 3⟩) ∧
    (2 ≤ 2) ∧
    (isOOMError ("CUDA out of memory") = true) ∧
    (onceOOMFeeder 0 [("text", [1, 2, 3])] = .error ("CUDA out of memory")) ∧
    (onceOOMFeeder 1 (shrinkBatch [("text", [1, 2, 3])]) = .ok (some (7, []))) ∧
    ∃ e', engineStepBody ⟨3, 2, "", 0⟩ onceOOMFeeder (.ok ()) 2 sampleEngine
        [("text", [1, 2, 3])] = .ok e' false ∧
      e'.micro_steps = sampleEngine.micro_steps + 1 ∧
      e'.global_samples = sampleEngine.global_samples + (3 : Nat) :=
  ⟨rfl, by decide, by decide, rfl, rfl,
    C4_oom_retry_succeeds ⟨3, 2, "", 0⟩ sampleEngine ⟨1, 2, 3⟩ [("text", [1, 2, 3])]
      "CUDA out of memory" 7 [] onceOOMFeeder 2 rfl (by decide) (by decide) rfl rfl⟩

/-! Sampling pipeline, stage 1 (`Base.sample`, models/base.py lines 408-418):
restriction of the raw logits to the relevant time slice. -/

/-- One sequence's logits: a list of per-time-step rows. -/
abbrev Logits := List (List Int)

/-- Python negative-start slicing `xs[-l:]` for `l : Nat` (`l = 0` gives
`xs[0:]`, the whole list). -/
def pySliceLast (xs : Logits) (l : Nat) : Logits :=
  if l = 0 then xs else xs.drop (xs.length - l)

/-- Python's iteration protocol applied to an `int` value: `zip(xs, n)` must
iterate `n`, and `int` is not iterable, so the call raises `TypeError`. -/
def pyIterOverInt (n : Int) : Except PyErr (List Int) :=
  .error (.typeError ("zip argument 2 must support iteration"))

/-- Stage (1) of `Base.sample`: with `quant_levels` given (NAR), keep per
sequence the last `len(resps)` steps; otherwise in chunked AR mode
(`self.causal and self.recurrent_chunk_size > 0`) the source evaluates
`zip(logits, self.recurrent_chunk_size)` — iterating the *int*
`recurrent_chunk_size` (its property is annotated `-> int` and was just
compared with `> 0`); otherwise (plain AR) keep the last step
`logit[-1:]`. -/
def sampleSliceStage (causal : Bool) (recurrent_chunk_size : Int)
    (quant_levels : Option (List Int)) (logits : List Logits)
    (resps_len : List Nat) : Except PyErr (List Logits) :=
  if quant_levels.isSome then
    .ok (List.zipWith (fun logit l => pySliceLast logit l) logits resps_len)
  else if causal ∧ recurrent_chunk_size > 0 then
    match pyIterOverInt recurrent_chunk_size with
    | .error err => .error err
    | .ok chunks =>
      .ok (List.zipWith (fun logit l => pySliceLast logit l.toNat) logits chunks)
  else
    .ok (logits.map fun logit => pySliceLast logit 1)

/-- C8 (what the code actually does): for every causal model in chunked AR
mode (`recurrent_chunk_size > 0`) and every logits list, the first pipeline
stage of `Base.sample` raises `TypeError` — `zip(logits,
self.recurrent_chunk_size)` iterates over an `int` — instead of returning the
newest-chunk slice. -/
theorem C8_chunked_ar_slice_raises (rcs : Int) (logits : List Logits)
    (resps_len : List Nat) (hpos : rcs > 0) :
    sampleSliceStage true rcs none logits resps_len
      = .error (.typeError ("zip argument 2 must support iteration")) := by
  unfold sampleSliceStage
  rw [if_neg (by simp : ¬ ((none : Option (List Int)).isSome = true))]
  rw [if_pos (⟨rfl, hpos⟩ : (true : Bool) = true ∧ rcs > 0)]
  rfl

/-- Witness for C8 at `recurrent_chunk_size = 2` and one three-step
sequence. -/
theorem C8_chunked_ar_slice_raises_witness :
    ((2 : Int) > 0) ∧
    sampleSliceStage true 2 none [[[1, 2], [3, 4], [5, 6]]] [3]
      = .error (.typeError ("zip argument 2 must support iteration")) :=
  ⟨by decide, C8_chunked_ar_slice_raises 2 [[[1, 2], [3, 4], [5, 6]]] [3] (by decide)⟩

end ValleSpec
